import Mathlib

/-!
Shallow embedding of the authorization core of `ts_love_csc`
(`python/lsst/ts/love/csc/utils.py` and
`python/lsst/ts/love/csc/authorization_model.py`).

Python sets of strings become `Finset String`; the `authorization` dict of
`AuthorizationModel` becomes the function `String → Option ComponentAuthorization`
(`dict.get`, key assignment and `pop` become point reads and pointwise updates);
a raised exception becomes the `error` branch of `Except`.

One point of the source needs care: `AuthorizationModel.get_component_authorization`
returns `self.authorization.get(component, fresh_default)`, which, when the
component is a key of the dict, is a reference to the stored inner dict itself.
`get_authorization` then assigns through that reference, so when the component is
present its stored entry is overwritten in place.  The embedding makes that
effect explicit: `get_authorization` returns the updated model next to the
computed result, and the update is the identity exactly when the component is
absent from the store.
-/

namespace TsLoveCsc

instance {ε α : Type _} [DecidableEq ε] [DecidableEq α] : DecidableEq (Except ε α) :=
  fun a b =>
    match a, b with
    | .ok x, .ok y =>
        if h : x = y then isTrue (congrArg Except.ok h)
        else isFalse (fun hc => h (Except.ok.inj hc))
    | .error x, .error y =>
        if h : x = y then isTrue (congrArg Except.error h)
        else isFalse (fun hc => h (Except.error.inj hc))
    | .ok _, .error _ => isFalse (fun hc => Except.noConfusion hc)
    | .error _, .ok _ => isFalse (fun hc => Except.noConfusion hc)

/-- Per-component authorization state: the inner dict with keys
`authorized_users` and `non_authorized_cscs` used throughout
`authorization_model.py`. -/
structure ComponentAuthorization where
  authorized_users : Finset String
  non_authorized_cscs : Finset String
deriving DecidableEq

/-- Data carried by the `RuntimeError` that `parse_auth_request` raises:
the offending request string and the set `bad_entries` of raw tokens that
its message enumerates (the tokens starting with neither `+` nor `-`). -/
structure ParseFailure where
  request : String
  bad_entries : Finset String
deriving DecidableEq

/-- Embeds Python `s.split(",")`: cut at every comma, keeping empty pieces, so
the empty string yields `[""]`.  Structural recursion on the character list,
with an accumulator for the piece being built, so concrete instances evaluate
inside the kernel. -/
def splitCommaAux (acc : List Char) : List Char → List String
  | [] => [String.mk acc.reverse]
  | c :: rest =>
      if c = ',' then String.mk acc.reverse :: splitCommaAux [] rest
      else splitCommaAux (c :: acc) rest

/-- Embeds Python `s.split(",")` on a `String`. -/
def splitComma (s : String) : List String := splitCommaAux [] s.data

/-- Embeds Python `s.startswith(c)` for a one-character needle. -/
def startsWithChar (s : String) (c : Char) : Bool :=
  match s.data with
  | [] => false
  | d :: _ => d = c

/-- Embeds Python `s[1:]`. -/
def dropFirst (s : String) : String := String.mk s.data.tail

/-- The local `request_as_set` of `parse_auth_request`:
`set(request.split(","))`. -/
def request_as_set (request : String) : Finset String :=
  (splitComma request).toFinset

/-- The local `to_add` of `parse_auth_request`: the `+`-prefixed tokens with
the prefix stripped. -/
def to_add (request : String) : Finset String :=
  ((request_as_set request).filter (fun item => startsWithChar item '+')).image
    dropFirst

/-- The local `to_remove` of `parse_auth_request`: the `-`-prefixed tokens
with the prefix stripped. -/
def to_remove (request : String) : Finset String :=
  ((request_as_set request).filter (fun item => startsWithChar item '-')).image
    dropFirst

/-- The local `bad_entries` of `parse_auth_request`: the tokens starting with
neither `+` nor `-`, enumerated in the raised error's message. -/
def bad_entries (request : String) : Finset String :=
  (request_as_set request).filter
    (fun item => ¬ startsWithChar item '+' ∧ ¬ startsWithChar item '-')

/-- Embedding of `utils.parse_auth_request`: split the request on commas into a
set of tokens, strip `+`/`-` prefixes into the add/remove sets, and fail when
the union of the two stripped sets is smaller than the token set. -/
def parse_auth_request (request : String) :
    Except ParseFailure (Finset String × Finset String) :=
  if request.length = 0 then .ok (∅, ∅)
  else if (to_add request ∪ to_remove request).card ≠ (request_as_set request).card then
    .error { request := request, bad_entries := bad_entries request }
  else .ok (to_add request, to_remove request)

/-- The `authorization` dict of `AuthorizationModel`: a mapping from component
identity to its entry, `none` meaning the identity is not a key. -/
def AuthStore : Type := String → Option ComponentAuthorization

/-- State of an `AuthorizationModel` instance: the `authorization` dict and the
`_auto_accept_request` flag. -/
structure AuthorizationModel where
  authorization : AuthStore
  auto_accept_request : Bool

/-- `AuthorizationModel.__init__`: empty dict, `_auto_accept_request = True`. -/
def AuthorizationModel.init : AuthorizationModel where
  authorization := fun _ => none
  auto_accept_request := true

/-- Embedding of `AuthorizationModel.get_component_authorization`:
`self.authorization.get(component, dict(authorized_users=set(), non_authorized_cscs=set()))`. -/
def AuthorizationModel.get_component_authorization (self : AuthorizationModel)
    (component : String) : ComponentAuthorization :=
  (self.authorization component).getD ⟨∅, ∅⟩

/-- Embedding of `AuthorizationModel.get_authorization`.  Parses both request
strings, unions the additions into the current entry's sets and subtracts the
removals.  Because `get_component_authorization` aliases the stored inner dict
when the component is a key, the key assignments in the source overwrite the
stored entry; the returned model carries that update (and is unchanged when the
component is absent, since then the source operated on a fresh default dict). -/
def AuthorizationModel.get_authorization (self : AuthorizationModel)
    (component authorized_users non_authorized_cscs : String) :
    Except ParseFailure (ComponentAuthorization × AuthorizationModel) := do
  let component_authorization := self.get_component_authorization component
  let (authorize_users_to_add, authorize_users_to_remove) ←
    parse_auth_request authorized_users
  let (non_authorized_cscs_to_add, non_authorized_cscs_to_remove) ←
    parse_auth_request non_authorized_cscs
  let result : ComponentAuthorization :=
    { authorized_users :=
        (component_authorization.authorized_users ∪ authorize_users_to_add) \
          authorize_users_to_remove
      non_authorized_cscs :=
        (component_authorization.non_authorized_cscs ∪ non_authorized_cscs_to_add) \
          non_authorized_cscs_to_remove }
  let authorization' : AuthStore :=
    match self.authorization component with
    | none => self.authorization
    | some _ => fun c => if c = component then some result else self.authorization c
  .ok (result, { self with authorization := authorization' })

/-- Embedding of `AuthorizationModel._handle_enter_component_in_auth_list`:
insert an empty entry when the component is not yet a key. -/
def AuthorizationModel.handle_enter_component_in_auth_list
    (self : AuthorizationModel) (component : String) : AuthorizationModel :=
  match self.authorization component with
  | none =>
      { self with
        authorization := fun c =>
          if c = component then some ⟨∅, ∅⟩ else self.authorization c }
  | some _ => self

/-- Embedding of `AuthorizationModel._handle_exit_component_in_auth_list`:
pop the component's entry when it is a key and both its sets are empty. -/
def AuthorizationModel.handle_exit_component_in_auth_list
    (self : AuthorizationModel) (component : String) : AuthorizationModel :=
  match self.authorization component with
  | some entry =>
      if entry.authorized_users.card = 0 ∧ entry.non_authorized_cscs.card = 0 then
        { self with
          authorization := fun c =>
            if c = component then none else self.authorization c }
      else self
  | none => self

/-- Embedding of `AuthorizationModel.set_authorization`: ensure the entry
exists, overwrite both of its sets with the given values, then prune the entry
if both sets are now empty.  (The source receives iterables and converts them
with `set(...)`; the embedding takes the resulting sets directly.) -/
def AuthorizationModel.set_authorization (self : AuthorizationModel)
    (component : String) (authorized_users non_authorized_cscs : Finset String) :
    AuthorizationModel :=
  let self1 := self.handle_enter_component_in_auth_list component
  let self2 :=
    { self1 with
      authorization := fun c =>
        if c = component then some ⟨authorized_users, non_authorized_cscs⟩
        else self1.authorization c }
  self2.handle_exit_component_in_auth_list component

/-- Embedding of `AuthorizationModel.set_authorization_mode`. -/
def AuthorizationModel.set_authorization_mode (self : AuthorizationModel)
    (auto : Bool) : AuthorizationModel :=
  { self with auto_accept_request := auto }

/-- The fields of the DDS-like request object that `process_request` reads. -/
structure RequestData where
  cscsToChange : String
  authorizedUsers : String
  nonAuthorizedCSCs : String

/-- The `auth_list` payload yielded by `process_request`.  The source renders
each set as a comma-joined string in unspecified set-iteration order; the
embedding keeps the sets themselves, whose contents determine that string up to
token order. -/
structure AuthListPayload where
  authorizedUsers : Finset String
  nonAuthorizedCSCs : Finset String
deriving DecidableEq

/-- One element yielded by `process_request`: the target component and its
computed auth list. -/
structure SetAuthList where
  component : String
  auth_list : AuthListPayload
deriving DecidableEq

/-- The two ways `process_request` can raise: the `NotImplementedError` of
manual mode, or the `RuntimeError` propagated from `parse_auth_request`. -/
inductive ProcessFailure where
  | notImplemented (msg : String)
  | validation (e : ParseFailure)
deriving DecidableEq

/-- The loop body of `AuthorizationModel.process_request`: for each component
of the already-split target list, compute its authorization via
`get_authorization` (threading the model, since `get_authorization` updates
stored entries in place) and collect the yielded `set_auth_list` values.  A
raised parse failure aborts the loop, leaving the model as mutated so far. -/
def AuthorizationModel.process_request_loop (self : AuthorizationModel)
    (components : List String) (authorizedUsers nonAuthorizedCSCs : String) :
    Except ProcessFailure (List SetAuthList) × AuthorizationModel :=
  match components with
  | [] => (.ok [], self)
  | component :: rest =>
    match self.get_authorization component authorizedUsers nonAuthorizedCSCs with
    | .error e => (.error (.validation e), self)
    | .ok (component_authorization, self') =>
      match self'.process_request_loop rest authorizedUsers nonAuthorizedCSCs with
      | (.ok results, self'') =>
          (.ok
            ({ component := component
               auth_list :=
                { authorizedUsers := component_authorization.authorized_users
                  nonAuthorizedCSCs := component_authorization.non_authorized_cscs } }
              :: results),
            self'')
      | (.error e, self'') => (.error e, self'')

/-- Embedding of `AuthorizationModel.process_request`: raise
`NotImplementedError` when `_auto_accept_request` is false, otherwise split
`data.cscsToChange` on commas and yield one `set_auth_list` per component in
order.  The generator's elements are collected into a list; the final model is
returned next to them. -/
def AuthorizationModel.process_request (self : AuthorizationModel)
    (data : RequestData) :
    Except ProcessFailure (List SetAuthList) × AuthorizationModel :=
  if ¬ self.auto_accept_request then
    (.error (.notImplemented "Non-automatic mode not implemented yet."), self)
  else
    self.process_request_loop (splitComma data.cscsToChange)
      data.authorizedUsers data.nonAuthorizedCSCs

/-! ### Helper lemmas -/

/-- No token can start with both `+` and `-`. -/
theorem startsWithChar_plus_minus {t : String}
    (h1 : startsWithChar t '+') (h2 : startsWithChar t '-') : False := by
  unfold startsWithChar at h1 h2
  cases hd : t.data with
  | nil => rw [hd] at h1; exact Bool.noConfusion h1
  | cons c cs =>
      rw [hd] at h1 h2
      simp only [decide_eq_true_eq] at h1 h2
      subst h1
      exact absurd h2 (by decide)

/-- Pointwise description of the store after `set_authorization`: the target
component maps to the new entry unless both sets are empty, in which case it is
absent; every other key is untouched. -/
theorem set_authorization_lookup (m : AuthorizationModel) (component : String)
    (authorized_users non_authorized_cscs : Finset String) (x : String) :
    (m.set_authorization component authorized_users non_authorized_cscs).authorization x =
      (if x = component then
        (if authorized_users = ∅ ∧ non_authorized_cscs = ∅ then none
         else some ⟨authorized_users, non_authorized_cscs⟩)
       else m.authorization x) := by
  unfold AuthorizationModel.set_authorization
    AuthorizationModel.handle_enter_component_in_auth_list
    AuthorizationModel.handle_exit_component_in_auth_list
  by_cases hx : x = component <;>
    cases h : m.authorization component <;>
      by_cases hU : authorized_users = ∅ <;>
        by_cases hP : non_authorized_cscs = ∅ <;>
          simp [h, hx, hU, hP, Finset.card_eq_zero]

/-- `get_authorization` under successful parses of both expressions: the result
is the union/difference diff against the current entry, and the store update
rewrites the component's entry exactly when the component is a key. -/
theorem get_authorization_eq (m : AuthorizationModel)
    (component usersExpr cscsExpr : String) (aU rU aP rP : Finset String)
    (hU : parse_auth_request usersExpr = .ok (aU, rU))
    (hP : parse_auth_request cscsExpr = .ok (aP, rP)) :
    m.get_authorization component usersExpr cscsExpr =
      .ok (⟨((m.get_component_authorization component).authorized_users ∪ aU) \ rU,
            ((m.get_component_authorization component).non_authorized_cscs ∪ aP) \ rP⟩,
           { m with
             authorization :=
               match m.authorization component with
               | none => m.authorization
               | some _ => fun c =>
                   if c = component then
                     some ⟨((m.get_component_authorization component).authorized_users ∪ aU) \ rU,
                           ((m.get_component_authorization component).non_authorized_cscs ∪ aP) \ rP⟩
                   else m.authorization c }) := by
  unfold AuthorizationModel.get_authorization
  rw [hU, hP]
  rfl

/-- `get_authorization` on a component that is absent from the store leaves the
model unchanged (the source then worked on a fresh default dict). -/
theorem get_authorization_absent (m : AuthorizationModel)
    (component usersExpr cscsExpr : String) (aU rU aP rP : Finset String)
    (habs : m.authorization component = none)
    (hU : parse_auth_request usersExpr = .ok (aU, rU))
    (hP : parse_auth_request cscsExpr = .ok (aP, rP)) :
    m.get_authorization component usersExpr cscsExpr =
      .ok (⟨(∅ ∪ aU) \ rU, (∅ ∪ aP) \ rP⟩, m) := by
  rw [get_authorization_eq m component usersExpr cscsExpr aU rU aP rP hU hP]
  unfold AuthorizationModel.get_component_authorization
  rw [habs]
  rfl

/-! ### Claim theorems -/

/-- C1: evaluation of the code at the spec's concrete scenario.  The claim says
`computeDesiredState` (`get_authorization`) never mutates the store, so after
`commit("Test", {"u1"}, {})` and `computeDesiredState("Test", "+u2,-u1", "")`
the read `currentOrEmpty("Test")` should still give `({"u1"}, ∅)`.  In the code
`get_component_authorization` hands `get_authorization` the stored inner dict
itself, whose keys `get_authorization` then reassigns, so the call returns
`({"u2"}, ∅)` as required but the subsequent read also gives `({"u2"}, ∅)`. -/
theorem c1_get_authorization_mutates_store :
    ((AuthorizationModel.init.set_authorization "Test" {"u1"} ∅).get_authorization
        "Test" "+u2,-u1" "").toOption.map
      (fun r => (r.1, r.2.get_component_authorization "Test"))
      = some (⟨{"u2"}, ∅⟩, ⟨{"u2"}, ∅⟩)
    ∧ (⟨{"u2"}, ∅⟩ : ComponentAuthorization) ≠ ⟨{"u1"}, ∅⟩ := by
  constructor <;> decide

/-- C2: evaluation of the code at a violating input.  The claim says every
operation leaves a component in the store only if one of its two sets is
non-empty.  After `commit("Test", {"u1"}, {})`, the call
`computeDesiredState("Test", "-u1", "")` overwrites the stored entry in place
with two empty sets and never prunes it, so `"Test"` remains an enumerable key
whose sets are both empty. -/
theorem c2_presence_invariant_violated :
    ((AuthorizationModel.init.set_authorization "Test" {"u1"} ∅).get_authorization
        "Test" "-u1" "").toOption.map (fun r => r.2.authorization "Test")
      = some (some ⟨∅, ∅⟩) := by
  decide

/-- C3 counterexample: for the expression `"x,+a,-a"` — which fails because of
both the prefix-less token `"x"` and the `+a`/`-a` conflict — the raised
error enumerates only `{"x"}`; the conflicting tokens `"+a"` and `"-a"` are
not listed, contradicting the claim that every offending raw token appears. -/
theorem c3_conflict_tokens_not_listed :
    parse_auth_request "x,+a,-a" = .error ⟨"x,+a,-a", {"x"}⟩
    ∧ "+a" ∉ ({"x"} : Finset String) ∧ "-a" ∉ ({"x"} : Finset String) := by
  refine ⟨by decide, by decide, by decide⟩

/-- C3 (amended): on every parse failure, the error enumerates verbatim exactly
those raw tokens of the expression that lack a `+`/`-` prefix; tokens involved
in an add/remove conflict are not listed (for a pure conflict the enumerated
set is empty). -/
theorem c3_bad_entries_exactly_unprefixed_tokens (request : String)
    (e : ParseFailure) (h : parse_auth_request request = .error e) (t : String) :
    t ∈ e.bad_entries ↔
      (t ∈ splitComma request ∧ ¬ startsWithChar t '+' ∧ ¬ startsWithChar t '-') := by
  unfold parse_auth_request at h
  split_ifs at h with h0 hc
  all_goals first
    | exact Except.noConfusion h
    | (injection h with h'
       subst h'
       simp [bad_entries, request_as_set, Finset.mem_filter, List.mem_toFinset,
         and_assoc])

/-- C3 witness: the amended characterization applied to the expression
`"x,+a,-a"` at the token `"x"`. -/
theorem c3_bad_entries_exactly_unprefixed_tokens_witness :
    parse_auth_request "x,+a,-a" = .error ⟨"x,+a,-a", {"x"}⟩
    ∧ ("x" ∈ (ParseFailure.mk "x,+a,-a" {"x"}).bad_entries ↔
        ("x" ∈ splitComma "x,+a,-a" ∧ ¬ startsWithChar "x" '+'
          ∧ ¬ startsWithChar "x" '-')) :=
  ⟨by decide,
   c3_bad_entries_exactly_unprefixed_tokens "x,+a,-a" ⟨"x,+a,-a", {"x"}⟩
     (by decide) "x"⟩

/-- C4: diff correctness of `computeDesiredState`: whenever both expressions
parse, the returned state is the stored sets with the additions unioned in and
the removals subtracted, for users and blocked CSCs alike. -/
theorem c4_diff_correctness (m : AuthorizationModel)
    (component usersExpr cscsExpr : String) (aU rU aP rP : Finset String)
    (hU : parse_auth_request usersExpr = .ok (aU, rU))
    (hP : parse_auth_request cscsExpr = .ok (aP, rP)) :
    ∃ m', m.get_authorization component usersExpr cscsExpr =
      .ok (⟨((m.get_component_authorization component).authorized_users ∪ aU) \ rU,
            ((m.get_component_authorization component).non_authorized_cscs ∪ aP) \ rP⟩,
           m') :=
  ⟨_, get_authorization_eq m component usersExpr cscsExpr aU rU aP rP hU hP⟩

/-- C4 witness: the spec's instance — stored `({"b"}, ∅)`, request
`("+a,-b", "+x")` — yields `(({"b"} ∪ {"a"}) \ {"b"}, (∅ ∪ {"x"}) \ ∅)`. -/
theorem c4_diff_correctness_witness :
    parse_auth_request "+a,-b" = .ok ({"a"}, {"b"})
    ∧ parse_auth_request "+x" = .ok ({"x"}, ∅)
    ∧ ∃ m', (AuthorizationModel.init.set_authorization "Test" {"b"} ∅).get_authorization
        "Test" "+a,-b" "+x" =
      .ok (⟨(((AuthorizationModel.init.set_authorization "Test" {"b"} ∅).get_component_authorization
                "Test").authorized_users ∪ {"a"}) \ {"b"},
            (((AuthorizationModel.init.set_authorization "Test" {"b"} ∅).get_component_authorization
                "Test").non_authorized_cscs ∪ {"x"}) \ ∅⟩, m') :=
  ⟨by decide, by decide,
   c4_diff_correctness _ "Test" "+a,-b" "+x" {"a"} {"b"} {"x"} ∅
     (by decide) (by decide)⟩

/-- C5: evaluation of the code at a violating input.  With mode automatic and
the store holding `Test ↦ ({"u1"}, ∅)`, processing the request
`("Test", "+u2,-u1", "")` yields exactly one result per target with the
correctly diffed desired state, but — against the claim's "commits nothing to
the store" — the run leaves the store's `Test` entry overwritten to
`({"u2"}, ∅)`, through the same in-place mutation as in C1. -/
theorem c5_process_request_overwrites_entry :
    (((AuthorizationModel.init.set_authorization "Test" {"u1"} ∅).process_request
        ⟨"Test", "+u2,-u1", ""⟩).1
      = .ok [{ component := "Test", auth_list := ⟨{"u2"}, ∅⟩ }])
    ∧ ((((AuthorizationModel.init.set_authorization "Test" {"u1"} ∅).process_request
        ⟨"Test", "+u2,-u1", ""⟩).2.authorization "Test")
      = some ⟨{"u2"}, ∅⟩)
    ∧ some (⟨{"u2"}, ∅⟩ : ComponentAuthorization) ≠ some ⟨{"u1"}, ∅⟩ := by
  refine ⟨by decide, by decide, by decide⟩

/-- C6: with the mode flag false (manual), `process_request` raises
`NotImplementedError` and returns the model unchanged — no result is produced
and the store has no partial side effects. -/
theorem c6_manual_mode_fails_unchanged (m : AuthorizationModel)
    (data : RequestData) (h : m.auto_accept_request = false) :
    m.process_request data =
      (.error (.notImplemented "Non-automatic mode not implemented yet."), m) := by
  unfold AuthorizationModel.process_request
  rw [h]
  rfl

/-- C6 witness: the gating theorem applied to a freshly initialized model put
into manual mode. -/
theorem c6_manual_mode_fails_unchanged_witness :
    (AuthorizationModel.init.set_authorization_mode false).auto_accept_request = false
    ∧ (AuthorizationModel.init.set_authorization_mode false).process_request
        ⟨"Test", "+u1", ""⟩ =
      (.error (.notImplemented "Non-automatic mode not implemented yet."),
       AuthorizationModel.init.set_authorization_mode false) :=
  ⟨rfl, c6_manual_mode_fails_unchanged _ _ rfl⟩

/-- C8: commit/read round trip — `set_authorization` followed by
`get_component_authorization` on the same component returns exactly the two
sets that were committed, whether or not they are empty. -/
theorem c8_commit_read_roundtrip (m : AuthorizationModel) (c : String)
    (U P : Finset String) :
    (m.set_authorization c U P).get_component_authorization c = ⟨U, P⟩ := by
  unfold AuthorizationModel.get_component_authorization
  rw [set_authorization_lookup, if_pos rfl]
  split_ifs with h
  · obtain ⟨h1, h2⟩ := h
    rw [h1, h2]
    rfl
  · rfl

/-- C9: committing two empty sets prunes the component — afterwards it is not
a key of the store and `get_component_authorization` returns the empty pair. -/
theorem c9_empty_commit_prunes (m : AuthorizationModel) (c : String) :
    (m.set_authorization c ∅ ∅).authorization c = none
    ∧ (m.set_authorization c ∅ ∅).get_component_authorization c = ⟨∅, ∅⟩ := by
  have hl : (m.set_authorization c ∅ ∅).authorization c = none := by
    rw [set_authorization_lookup, if_pos rfl, if_pos ⟨rfl, rfl⟩]
  refine ⟨hl, ?_⟩
  unfold AuthorizationModel.get_component_authorization
  rw [hl]
  rfl

/-- C7: conflict detection — any expression containing an add token and a
remove token for the same item (such as `"+a,-a"`) fails with the parse error,
because the stripped add/remove union then has strictly fewer elements than
the token set. -/
theorem c7_add_remove_conflict_fails (request t1 t2 : String)
    (h1 : t1 ∈ splitComma request) (h2 : t2 ∈ splitComma request)
    (hs1 : startsWithChar t1 '+') (hs2 : startsWithChar t2 '-')
    (heq : dropFirst t1 = dropFirst t2) :
    parse_auth_request request = .error ⟨request, bad_entries request⟩ := by
  have h0 : ¬ request.length = 0 := by
    intro hlen
    have hdata : request.data = [] := List.length_eq_zero.mp hlen
    have hsplit : splitComma request = [String.mk []] := by
      unfold splitComma
      rw [hdata]
      rfl
    rw [hsplit, List.mem_singleton] at h1
    subst h1
    unfold startsWithChar at hs1
    exact Bool.noConfusion hs1
  have hT1 : t1 ∈ request_as_set request := List.mem_toFinset.mpr h1
  have hT2 : t2 ∈ request_as_set request := List.mem_toFinset.mpr h2
  have hA : t1 ∈ (request_as_set request).filter
      (fun item => startsWithChar item '+') := Finset.mem_filter.mpr ⟨hT1, hs1⟩
  have hB : t2 ∈ (request_as_set request).filter
      (fun item => startsWithChar item '-') := Finset.mem_filter.mpr ⟨hT2, hs2⟩
  have hxa : dropFirst t1 ∈ to_add request := Finset.mem_image_of_mem dropFirst hA
  have hxb : dropFirst t1 ∈ to_remove request := by
    rw [heq]
    exact Finset.mem_image_of_mem dropFirst hB
  have hinter : 0 < (to_add request ∩ to_remove request).card :=
    Finset.card_pos.mpr ⟨dropFirst t1, Finset.mem_inter.mpr ⟨hxa, hxb⟩⟩
  have hdisj : Disjoint
      ((request_as_set request).filter (fun item => startsWithChar item '+'))
      ((request_as_set request).filter (fun item => startsWithChar item '-')) := by
    rw [Finset.disjoint_left]
    intro a ha hb
    exact startsWithChar_plus_minus (Finset.mem_filter.mp ha).2
      (Finset.mem_filter.mp hb).2
  have hsum : ((request_as_set request).filter
        (fun item => startsWithChar item '+')).card
      + ((request_as_set request).filter
        (fun item => startsWithChar item '-')).card
      ≤ (request_as_set request).card := by
    rw [← Finset.card_union_of_disjoint hdisj]
    exact Finset.card_le_card
      (Finset.union_subset (Finset.filter_subset _ _) (Finset.filter_subset _ _))
  have hunion : (to_add request ∪ to_remove request).card
      + (to_add request ∩ to_remove request).card
      = (to_add request).card + (to_remove request).card :=
    Finset.card_union_add_card_inter _ _
  have himg1 : (to_add request).card ≤ ((request_as_set request).filter
      (fun item => startsWithChar item '+')).card := Finset.card_image_le
  have himg2 : (to_remove request).card ≤ ((request_as_set request).filter
      (fun item => startsWithChar item '-')).card := Finset.card_image_le
  have hne : (to_add request ∪ to_remove request).card
      ≠ (request_as_set request).card := by omega
  unfold parse_auth_request
  rw [if_neg h0, if_pos hne]

/-- C7 witness: the conflict theorem applied to the spec's concrete request
`"+a,-a"` with the tokens `"+a"` and `"-a"`. -/
theorem c7_add_remove_conflict_fails_witness :
    ("+a" ∈ splitComma "+a,-a") ∧ ("-a" ∈ splitComma "+a,-a")
    ∧ startsWithChar "+a" '+' ∧ startsWithChar "-a" '-'
    ∧ dropFirst "+a" = dropFirst "-a"
    ∧ parse_auth_request "+a,-a" = .error ⟨"+a,-a", bad_entries "+a,-a"⟩ :=
  ⟨by decide, by decide, by decide, by decide, by decide,
   c7_add_remove_conflict_fails "+a,-a" "+a" "-a" (by decide) (by decide)
     (by decide) (by decide) (by decide)⟩

/-- C10: with mode automatic and an empty `cscsToChange` field, splitting the
empty string on commas produces the single identity `""`, so `process_request`
yields exactly one result, for the component `""`, diffed against that absent
component's empty current state; the model comes back unchanged. -/
theorem c10_empty_target_yields_one_result (m : AuthorizationModel)
    (usersExpr cscsExpr : String) (aU rU aP rP : Finset String)
    (hauto : m.auto_accept_request = true)
    (habs : m.authorization "" = none)
    (hU : parse_auth_request usersExpr = .ok (aU, rU))
    (hP : parse_auth_request cscsExpr = .ok (aP, rP)) :
    m.process_request ⟨"", usersExpr, cscsExpr⟩ =
      (.ok [{ component := ""
              auth_list := { authorizedUsers := (∅ ∪ aU) \ rU
                             nonAuthorizedCSCs := (∅ ∪ aP) \ rP } }], m) := by
  unfold AuthorizationModel.process_request
  rw [hauto]
  show m.process_request_loop [""] usersExpr cscsExpr = _
  unfold AuthorizationModel.process_request_loop
  rw [get_authorization_absent m "" usersExpr cscsExpr aU rU aP rP habs hU hP]
  rfl

/-- C10 witness: the empty-target theorem applied to the fresh model and the
expressions `("+u2,-u1", "")`. -/
theorem c10_empty_target_yields_one_result_witness :
    AuthorizationModel.init.auto_accept_request = true
    ∧ AuthorizationModel.init.authorization "" = none
    ∧ parse_auth_request "+u2,-u1" = .ok ({"u2"}, {"u1"})
    ∧ parse_auth_request "" = .ok (∅, ∅)
    ∧ AuthorizationModel.init.process_request ⟨"", "+u2,-u1", ""⟩ =
      (.ok [{ component := ""
              auth_list := { authorizedUsers := (∅ ∪ {"u2"}) \ {"u1"}
                             nonAuthorizedCSCs := ((∅ : Finset String) ∪ ∅) \ ∅ } }],
       AuthorizationModel.init) :=
  ⟨rfl, rfl, by decide, rfl,
   c10_empty_target_yields_one_result AuthorizationModel.init "+u2,-u1" ""
     {"u2"} {"u1"} ∅ ∅ rfl rfl (by decide) rfl⟩

end TsLoveCsc
